import Mathlib

/-!
Verification of the hanging-node refinement core of sfepy
(`sfepy/discrete/fem/fields_nodal.py` and
`sfepy/discrete/fem/refine_hanging.py`) against its specification.

The Python functions are shallowly embedded as executable Lean
definitions over `List`-based meshes and `Rat`-valued arrays.  Machine
floats carrying the NaN marker are modelled by an explicit `Val` type
with a distinguished undefined constructor; numpy fancy indexing and
boolean masking are unfolded into explicit list traversals that follow
the source expressions index for index.
-/

namespace Sfepy

/-! ## Field evaluator: `H1NodalMixin.evaluate_at` (fields_nodal.py)

An interpolated value at one query point.  `Val.nan` is the explicit
undefined marker written by `vals[ii] = nm.nan`; finite values are kept
as exact rationals. -/

inductive Val where
  | nan : Val
  | num : ℚ → Val
deriving DecidableEq, Repr

/-- Embedding of lines 305-307 of fields_nodal.py:
`ii = nm.where(status > 1)[0]; vals[ii] = nm.nan`.
Pointwise: every point whose status code exceeds 1 has its value
replaced by the undefined marker, all other points are untouched. -/
def maskNan (vals : List Val) (status : List ℕ) : List Val :=
  (vals.zip status).map (fun p => if p.2 > 1 then Val.nan else p.1)

/-- The four return shapes of `evaluate_at` (lines 309-319): the
branches on `ret_ref_coors`, `ret_status` and `ret_cells`. -/
inductive EvalOut where
  | full (vals : List Val) (refCoors : List (List ℚ)) (cells : List ℕ)
      (status : List ℕ) : EvalOut
  | withStatus (vals : List Val) (cells : List ℕ) (status : List ℕ) : EvalOut
  | withCells (vals : List Val) (cells : List ℕ) : EvalOut
  | plain (vals : List Val) : EvalOut
deriving DecidableEq, Repr

/-- Projection of the interpolated-values component of any return shape. -/
def EvalOut.vals : EvalOut → List Val
  | .full v _ _ _ => v
  | .withStatus v _ _ => v
  | .withCells v _ => v
  | .plain v => v

/-- Embedding of the tail of `H1NodalMixin.evaluate_at`
(fields_nodal.py lines 302-319).  The interpolated values, reference
coordinates, owning cells and status codes produced by the external
root finder `get_ref_coors` and by `evaluate_in_rc` enter as arguments;
the function then performs the NaN masking (guarded only by
`ret_status`) and selects the return shape. -/
def evaluate_at (vals : List Val) (refCoors : List (List ℚ))
    (cells : List ℕ) (status : List ℕ)
    (retCells retStatus retRefCoors : Bool) : EvalOut :=
  let vals2 := if retStatus then vals else maskNan vals status
  if retRefCoors then .full vals2 refCoors cells status
  else if retStatus then .withStatus vals2 cells status
  else if retCells then .withCells vals2 cells
  else .plain vals2

/-! ## DOF connectivity builder: `H1NodalMixin._setup_facet_dofs`
(fields_nodal.py lines 66-118)

The write performed by line 113,
`self.ap.econn[iel[:, None], iep] = gdofs[iaux[:, None], perms]`,
places, for each region cell, each of its local facets and each facet
DOF slot `k`, the value `offset + m * facet + perms[ori][k]` into the
econn column `facet_desc[lf][k]`, where `facet` is the remapped global
facet id of that (cell, local facet) pair, `m = n_dof_per_facet`, and
`ori` its orientation code from `cmesh.get_orientations`. -/

/-- Modelled from the spec: the per-orientation facet DOF permutations
returned by `get_facet_dof_permutations` (sfepy.discrete.fem.facets is
not under src/) for a 2-vertex facet (an edge with m DOFs along it).
Per spec section 3, orientation code 0 is canonical and its permutation
is the identity; the one other alignment of an edge is the reversed
vertex ordering, whose permutation reverses the facet-local slots. -/
def edgeDofPerm (m : ℕ) (ori : ℕ) (k : ℕ) : ℕ :=
  if ori = 0 then k else m - 1 - k

/-- Modelled from the spec (glossary, orientation code): the canonical
(physical) facet node index that cell-local facet slot `k` refers to,
for a cell seeing the edge with orientation `ori`: slot order follows
the canonical node order when the orientation is canonical and is
reversed otherwise. -/
def physNode (m : ℕ) (ori : ℕ) (k : ℕ) : ℕ :=
  if ori = 0 then k else m - 1 - k

/-- One row of the facet write loop: a region cell, one of its local
facets, the remapped global id of the facet (`remap[cconn.indices[...]]`)
and the orientation code of the (cell, local facet) pair. -/
structure CellFacet where
  cell : ℕ
  lf : ℕ
  facet : ℕ
  ori : ℕ
deriving DecidableEq, Repr

/-- Embedding of `_setup_facet_dofs` line 113 together with lines
106-107 (`gdofs = offset + expand_nodes_to_dofs(facets_of_cells,
n_dof_per_facet)`): the list of writes `((cell, econn column), global
DOF id)` performed into the element connectivity, one per (cell, local
facet, facet DOF slot). -/
def setup_facet_dofs_writes (offset m : ℕ) (facetDesc : List (List ℕ))
    (rows : List CellFacet) : List ((ℕ × ℕ) × ℕ) :=
  rows.flatMap (fun r =>
    (List.range m).map (fun k =>
      ((r.cell, (facetDesc.getD r.lf []).getD k 0),
        offset + (m * r.facet + edgeDofPerm m r.ori k))))

/-- The global DOF id that the row `r` of the write loop stores into
the econn slot corresponding to canonical facet node `p`: the slot for
`p` in that cell is the facet DOF slot `physNode m r.ori p`, and the
value written there by line 113 is
`offset + m * r.facet + edgeDofPerm m r.ori (physNode m r.ori p)`. -/
def writtenDofAtPhysNode (offset m : ℕ) (r : CellFacet) (p : ℕ) : ℕ :=
  offset + (m * r.facet + edgeDofPerm m r.ori (physNode m r.ori p))

/-! ## Refinement interface finder: `find_level_interface`
(refine_hanging.py lines 32-89) -/

/-- Embedding of `numpy.searchsorted(a, v)` (side `left`, the default,
used at line 86): the index of the first element of `a` that is at
least `v`, or `a.length` when there is none. -/
def searchsorted (a : List ℕ) (v : ℕ) : ℕ :=
  a.findIdx (fun x => v ≤ x)

/-- Embedding of `assert_((nm.diff(offs) == 2).all())` (line 73): all
consecutive differences of the incidence offsets equal 2, i.e. every
interface facet has exactly two incident cells. -/
def diffsAllTwo : List ℕ → Bool
  | a :: b :: rest => b == a + 2 && diffsAllTwo (b :: rest)
  | _ => true

/-- Embedding of `cells.reshape((-1, 2))` / `ii.reshape((-1, 2))`
(lines 77-78): the flat incidence array grouped into rows of two. -/
def toPairs : List ℕ → List (ℕ × ℕ)
  | a :: b :: rest => (a, b) :: toPairs rest
  | _ => []

/-- Embedding of lines 80-81 for one facet row:
`nm.where(refine_flag[cells], cells[:, :1], cells[:, 1:])` with the
one-column operands broadcast over the two-column condition.  Entry
`j` of the result is `cells[0]` when `refine_flag[cells[j]]` holds and
`cells[1]` otherwise. -/
def orientCells (flag : List Bool) (c : ℕ × ℕ) : ℕ × ℕ :=
  ((if flag.getD c.1 false then c.1 else c.2),
   (if flag.getD c.2 false then c.1 else c.2))

/-- Embedding of the same `nm.where` select applied to the local facet
indices `ii` (line 80): the condition is `refine_flag[cells]`, the
operands the two local indices. -/
def orientLocals (flag : List Bool) (c : ℕ × ℕ) (l : ℕ × ℕ) : ℕ × ℕ :=
  ((if flag.getD c.1 false then l.1 else l.2),
   (if flag.getD c.2 false then l.1 else l.2))

/-- The data returned by `find_level_interface` for a non-empty refine
flag: rows of `nm.c_[facets, ii]` and of `nm.c_[cells, ii]`. -/
structure InterfaceData where
  facetRows : List (ℕ × ℕ × ℕ)
  cellRows : List (ℕ × ℕ × ℕ)
deriving DecidableEq, Repr

/-- Failure modes of the embedded refinement pipeline: `assertError`
stands for a failed `assert_` (a raised `ValueError`), `typeError` for
a Python `TypeError` raised when a function is called with the wrong
number of arguments. -/
inductive PyError where
  | assertError : PyError
  | typeError : PyError
deriving DecidableEq, Repr

/-- Embedding of `find_level_interface(domain, refine_flag)`
(lines 32-89).  Inputs that the excluded mesh-topology service
(`cmesh`, regions) produces are taken as arguments: `facets` is the
sorted intersection of the facet sets of the two regions, `cellsFlat`/`offs`
the incidence CSR arrays from `cmesh.get_incident`, `locFlat` the
local facet ids from `cmesh.get_local_ids`, and `region0cells` the
sorted cell list of the coarse region.  Returns the empty structure
for an all-false flag (lines 46-49), raises the incidence assertion
otherwise when some facet does not have exactly two incident cells
(line 73), and otherwise builds the oriented rows (lines 75-87). -/
def find_level_interface (flag : List Bool) (facets : List ℕ)
    (cellsFlat : List ℕ) (offs : List ℕ) (locFlat : List ℕ)
    (region0cells : List ℕ) : Except PyError InterfaceData :=
  if flag.all (fun b => b = false) then
    .ok ⟨[], []⟩
  else if diffsAllTwo offs then
    let cellPairs := toPairs cellsFlat
    let locPairs := toPairs locFlat
    let oc := cellPairs.map (orientCells flag)
    let ol := (cellPairs.zip locPairs).map (fun p => orientLocals flag p.1 p.2)
    let facetRows := (facets.zip ol).map (fun p => (p.1, p.2.1, p.2.2))
    let cellRows := oc.map (fun c => (c.1, c.2, searchsorted region0cells c.2))
    .ok ⟨facetRows, cellRows⟩
  else
    .error .assertError

/-- Whether an embedded Python call completed normally (no exception). -/
def isOkE {α : Type} : Except PyError α → Bool
  | .ok _ => true
  | .error _ => false

/-- The interface data of a completed `find_level_interface` call (the
empty structure for a raised exception). -/
def interfaceRows : Except PyError InterfaceData → InterfaceData
  | .ok d => d
  | .error _ => ⟨[], []⟩

/-- The first incident-cell pair of interface facet `i`, as read from
the flattened incidence array (`cells.reshape((-1, 2))` row `i`). -/
def cellPairAt (cellsFlat : List ℕ) (i : ℕ) : ℕ × ℕ :=
  (toPairs cellsFlat).getD i (0, 0)

/-- The local-facet-index pair of interface facet `i`, as read from
the flattened local-id array (`ii.reshape((-1, 2))` row `i`). -/
def locPairAt (locFlat : List ℕ) (i : ℕ) : ℕ × ℕ :=
  (toPairs locFlat).getD i (0, 0)

/-! ## Region refiner: `refine_region` (refine_hanging.py lines 91-120) -/

/-- Embedding of `refine_region` lines 105-108: the sub-cell map rows.
Row `i` is coarse cell `region1.cells[i]` followed by its recorded
child ids `region0.shape.n_cell + (4 i .. 4 i + 3)` — the child count
4 and the offset `n0` (the number of unrefined coarse cells) are both
hard-coded by `nm.arange(4 * region1.shape.n_cell).reshape((-1, 4))`,
independently of the reference cell kind. -/
def refine_region_sub_cells (n0 : ℕ) (cells1 : List ℕ) : List (ℕ × List ℕ) :=
  (List.range cells1.length).map (fun i =>
    (cells1.getD i 0,
     [n0 + 4 * i, n0 + 4 * i + 1, n0 + 4 * i + 2, n0 + 4 * i + 3]))

/-- Modelled from the spec: the child count of the fixed reference-cell
splitting template used by `FEDomain.refine` (not under src/): each 2D
quad or triangle splits into 4 children, each 3D hex into 8. -/
def templateChildCount (dim : ℕ) : ℕ :=
  if dim = 3 then 8 else 4

/-- A mesh in the shape of `Mesh.from_data` io data: vertex
coordinates, cell-to-vertex connectivity of the single cell kind used
here, and per-cell material ids. -/
structure Mesh where
  coors : List (List ℚ)
  conn : List (List ℕ)
  matIds : List ℕ
deriving DecidableEq, Repr

/-- Embedding of `refine_region` lines 110-118: the output mesh takes
its coordinates from the refined sub-mesh `mesh1r` (passed here as
`coors1r`), and concatenates the coarse rows `conn0[region0.cells]`
(resp. `mat_ids0[0][region0.cells]`) with the refined sub-mesh rows.
Modelled from the spec for the collaborators not under src/
(`Mesh.from_region` followed by `FEDomain.refine`): the refined
sub-mesh retains the original vertices, with their original ids and
coordinates, and appends the new midpoint/center vertices, so callers
instantiate `coors1r` as `mesh0.coors ++ extraCoors`. -/
def refine_region_mesh (mesh0 : Mesh) (region0cells : List ℕ)
    (coors1r : List (List ℚ)) (conns1r : List (List ℕ))
    (matIds1r : List ℕ) : Mesh :=
  { coors := coors1r
  , conn := region0cells.map (fun c => mesh0.conn.getD c []) ++ conns1r
  , matIds := region0cells.map (fun c => mesh0.matIds.getD c 0) ++ matIds1r }

/-! ## Substitution chaining: `refine` (refine_hanging.py lines 151-195) -/

/-- Embedding of lines 185-186: `mods = nm.zeros(domain.shape.n_el + 1,
dtype=nm.int32); mods[refine > 0] = -1`.  The boolean mask `refine`
is shorter than `mods` (old-numpy semantics: the mask applies to the
first `len(refine)` entries, the rest stay zero). -/
def modsInit (flag : List Bool) (nEl : ℕ) : List ℤ :=
  (List.range (nEl + 1)).map (fun i => if flag.getD i false then -1 else 0)

/-- Embedding of `nm.cumsum` (line 187): running prefix sums. -/
def cumsum : List ℤ → List ℤ
  | [] => []
  | x :: xs => x :: (cumsum xs).map (fun y => x + y)

/-- The cumulative offset array `mods` of lines 185-187. -/
def modsArr (flag : List Bool) (nEl : ℕ) : List ℤ :=
  cumsum (modsInit flag nEl)

/-- Embedding of line 190 for one substitution record:
`gsubs[:, [0, 2, 4]] += mods[gsubs[:, [0, 2, 4]]]` — the cell-index
columns 0, 2 and 4 are shifted by the cumulative offset looked up at
their own value, the facet columns 1, 3 and 5 are untouched. -/
def shiftRecord (mods : List ℤ) (r : List ℕ) : List ℤ :=
  (List.range r.length).map (fun j =>
    if j = 0 ∨ j = 2 ∨ j = 4
    then (r.getD j 0 : ℤ) + mods.getD (r.getD j 0) 0
    else (r.getD j 0 : ℤ))

/-- Embedding of `refine` lines 181-193: accumulation of substitution
lists across chained passes.  With no prior list, the new list is kept
(or `None` when empty); with a prior list and a non-empty new list,
the prior records are index-shifted by `mods` and the new records are
appended after them. -/
def chain_gsubs (nEl : ℕ) (flag : List Bool)
    (gsubs : Option (List (List ℕ))) (gsubs1 : List (List ℕ)) :
    Option (List (List ℤ)) :=
  match gsubs with
  | none =>
      if gsubs1.length ≠ 0
      then some (gsubs1.map (fun r => r.map (fun x => (x : ℤ))))
      else none
  | some gs =>
      if gsubs1.length ≠ 0
      then some (gs.map (shiftRecord (modsArr flag nEl))
              ++ gsubs1.map (fun r => r.map (fun x => (x : ℤ))))
      else some (gs.map (fun r => r.map (fun x => (x : ℤ))))

/-! ## The `refine` driver and its arity bug (lines 151-195) -/

/-- Number of positional parameters of `find_facet_substitutions`
(line 122): `facets, cells, sub_cells, refine_facets`, none of which
has a default value. -/
def find_facet_substitutions_nparams : ℕ := 4

/-- Modelled Python calling convention: a call binds positionally and
completes only when the argument count matches the parameter count of
a function without defaults; otherwise the interpreter raises
`TypeError` before the body runs. -/
def pyCall (nparams nargs : ℕ) : Except PyError Unit :=
  if nargs = nparams then .ok () else .error .typeError

/-- Embedding of `refine(domain0, refine, gsubs=None)` (lines
151-195): run `find_level_interface` (propagating its assertion), then
the line-173 connectivity assertion (its outcome enters as the boolean
`connMatches`, checked only when there are interface facets), then the
desc-guarded four-argument call of line 177 (for the `2_4` kind), then
the unconditional three-argument call of line 180.  The substitution
chaining of lines 181-193 (see `chain_gsubs`) is only reached if that
call returns. -/
def refine_embedded (flag : List Bool)
    (facets cellsFlat offs locFlat region0cells : List ℕ)
    (connMatches : Bool) (isQuad : Bool) : Except PyError Unit :=
  match find_level_interface flag facets cellsFlat offs locFlat
      region0cells with
  | .error e => .error e
  | .ok d =>
    if d.facetRows.length > 0 ∧ connMatches = false then .error .assertError
    else
      match (if isQuad then pyCall find_facet_substitutions_nparams 4
             else .ok ()) with
      | .error e => .error e
      | .ok _ =>
        match pyCall find_facet_substitutions_nparams 3 with
        | .error e => .error e
        | .ok _ => .ok ()

/-! ## Basis transform computer: `eval_basis_transform`
(refine_hanging.py lines 197-255)

The reference-cell construction of lines 200-232 runs on the excluded
collaborators (`Mesh`, `FEDomain`, `Field`, `Integral`); its products
for the order-1 quad case — the fine-field facet list `ef` and the
coarse basis values `bf` at the fine facet nodes — are modelled below
from the spec and their values baked in exactly (they are exact binary
fractions, so the rational model matches the float computation). -/

/-- Modelled from the spec (reference cell geometry): the local edges
of the reference quad as ordered vertex pairs — the `efaces` of the
order-1 fields. -/
def efQuad : List (List ℕ) := [[0, 1], [1, 2], [2, 3], [3, 0]]

/-- Modelled from the spec: `bf = rcfield.get_base(..)` of line 228
for approximation order 1 — the four bilinear basis functions of the
coarse reference quad evaluated at the four fine facet node
coordinates `(0,0), (1/2,0), (1/2,0), (1,0)` selected by the fixed
`subs = [0, 0, 0, 0, 1, 3]` of line 214 on the once-refined quad.
Rows are points, columns basis functions. -/
def bfQuad1 : List (List ℚ) :=
  [[1, 0, 0, 0], [1/2, 1/2, 0, 0], [1/2, 1/2, 0, 0], [0, 1, 0, 0]]

/-- Row/column extraction `bf[lo:hi, 0, cols]` used at lines 244 and
250. -/
def bfSlice (lo hi : ℕ) (cols : List ℕ) : List (List ℚ) :=
  ((bfQuad1.drop lo).take (hi - lo)).map (fun row =>
    cols.map (fun c => row.getD c 0))

/-- The block `bf[:n_fdof, 0, ef[subs[1]]]` of line 244, with
`n_fdof = 2` and `subs[1] = 0`. -/
def bfBlock0 : List (List ℚ) := bfSlice 0 2 (efQuad.getD 0 [])

/-- The block `bf[n_fdof:, 0, ef[subs[1]]]` of line 250. -/
def bfBlock1 : List (List ℚ) := bfSlice 2 4 (efQuad.getD 0 [])

/-- One matrix entry update `m[r][c] := v`. -/
def setEntry (m : List (List ℚ)) (r c : ℕ) (v : ℚ) : List (List ℚ) :=
  m.set r ((m.getD r []).set c v)

/-- Embedding of `ix, iy = nm.meshgrid(e, e); mtx[ix, iy] = B`
(lines 243-244): the elementwise assignments `mtx[e[j], e[i]] = B[i][j]`
performed in C order over `(i, j)`. -/
def assignBlock (m : List (List ℚ)) (e : List ℕ) (B : List (List ℚ)) :
    List (List ℚ) :=
  (List.range e.length).foldl (fun acc i =>
    (List.range e.length).foldl (fun acc2 j =>
      setEntry acc2 (e.getD j 0) (e.getD i 0) ((B.getD i []).getD j 0)) acc) m

/-- Embedding of one iteration of the loop of lines 239-251: the two
fine-side cells `sub[2]` and `sub[4]` have the blocks written into the
rows/columns of their local facets `sub[3]` and `sub[5]`.  The numpy
`mtx = transform[sub[2]]` is a view, so the assignment mutates the
transform in place. -/
def applySub (t : List (List (List ℚ))) (sub : List ℕ) :
    List (List (List ℚ)) :=
  let t1 := t.set (sub.getD 2 0)
    (assignBlock (t.getD (sub.getD 2 0) []) (efQuad.getD (sub.getD 3 0) [])
      bfBlock0)
  t1.set (sub.getD 4 0)
    (assignBlock (t1.getD (sub.getD 4 0) []) (efQuad.getD (sub.getD 5 0) [])
      bfBlock1)

/-- The identity matrix `nm.eye(n)`. -/
def eye (n : ℕ) : List (List ℚ) :=
  (List.range n).map (fun i =>
    (List.range n).map (fun j => if i = j then 1 else 0))

/-- Embedding of `nm.tile(nm.eye(n), (nc, 1, 1))` (lines 234-235). -/
def tileEye (nc n : ℕ) : List (List (List ℚ)) :=
  (List.range nc).map (fun _ => eye n)

/-- The per-column sums `transform.sum(1)` of one cell matrix (line
253): axis 1 of the `(n_cell, n, n)` array is the row index, so the
sum collapses rows and yields one sum per column. -/
def colSums (n : ℕ) (m : List (List ℚ)) : List ℚ :=
  (List.range n).map (fun j => (m.map (fun row => row.getD j 0)).sum)

/-- The per-row sums of one cell matrix (what `transform.sum(2)` would
compute; not what line 253 checks). -/
def rowSums (m : List (List ℚ)) : List ℚ :=
  m.map (fun row => row.sum)

/-- The floating tolerance `1e-15` of line 253, as an exact rational. -/
def tol : ℚ := 1 / 10 ^ 15

/-- Embedding of `eval_basis_transform(field, gsubs)` (lines 197-255)
for an order-1 quad field with `nc` cells and `n = field.econn.shape[1]`
local DOFs: start from per-cell identities, return them unchecked when
`gsubs is None` (lines 236-237), otherwise apply every substitution
record and run the final assertion
`assert_((nm.abs(transform.sum(1) - 1.0) < 1e-15).all())` of line
253 before returning. -/
def eval_basis_transform (nc n : ℕ) (gsubs : Option (List (List ℕ))) :
    Except PyError (List (List (List ℚ))) :=
  match gsubs with
  | none => .ok (tileEye nc n)
  | some gs =>
    if (gs.foldl applySub (tileEye nc n)).all
        (fun m => (colSums n m).all (fun s => |s - 1| < tol))
    then .ok (gs.foldl applySub (tileEye nc n))
    else .error .assertError

end Sfepy

namespace Sfepy

/-- Helper: the incidence-offset check of line 73 holds exactly when
every consecutive pair of offsets differs by two, i.e. when every
interface facet has exactly two incident cells. -/
theorem diffsAllTwo_iff (offs : List ℕ) :
    diffsAllTwo offs = true ↔
      ∀ j, j + 1 < offs.length → offs.getD (j + 1) 0 = offs.getD j 0 + 2 := by
  induction offs with
  | nil => simp [diffsAllTwo]
  | cons a tail ih =>
    cases tail with
    | nil => simp [diffsAllTwo]
    | cons b rest =>
      constructor
      · intro h j hj
        unfold diffsAllTwo at h
        rw [Bool.and_eq_true] at h
        obtain ⟨h1, h2⟩ := h
        cases j with
        | zero =>
          simp only [List.getD_cons_succ, List.getD_cons_zero]
          simpa using h1
        | succ k =>
          have hk := (ih.mp h2) k (by simpa using hj)
          simpa using hk
      · intro h
        unfold diffsAllTwo
        rw [Bool.and_eq_true]
        refine ⟨?_, ih.mpr ?_⟩
        · have h0 := h 0 (by simp)
          simpa using h0
        · intro k hk
          have hk1 := h (k + 1) (by simpa using hk)
          simpa using hk1

/-- Helper: on a sorted list that contains `v`, `searchsorted` returns
an index holding exactly `v`. -/
theorem searchsorted_mem (a : List ℕ) (v : ℕ) (hs : a.Sorted (· ≤ ·))
    (hv : v ∈ a) :
    searchsorted a v < a.length ∧ a.getD (searchsorted a v) 0 = v := by
  induction a with
  | nil => cases hv
  | cons x xs ih =>
    unfold searchsorted
    by_cases hx : v ≤ x
    · have hxv : x ≤ v := by
        rcases List.mem_cons.mp hv with h | h
        · omega
        · exact (List.sorted_cons.mp hs).1 v h
      have hfind : List.findIdx (fun y => v ≤ y) (x :: xs) = 0 := by
        rw [List.findIdx_cons]
        simp [hx]
      rw [hfind]
      refine ⟨by simp, ?_⟩
      show x = v
      omega
    · have hvxs : v ∈ xs := by
        rcases List.mem_cons.mp hv with h | h
        · omega
        · exact h
      have hs2 : xs.Sorted (· ≤ ·) := (List.sorted_cons.mp hs).2
      have ih2 := ih hs2 hvxs
      unfold searchsorted at ih2
      have hfind : List.findIdx (fun y => v ≤ y) (x :: xs)
          = List.findIdx (fun y => v ≤ y) xs + 1 := by
        rw [List.findIdx_cons]
        simp [hx]
      rw [hfind]
      refine ⟨by simpa using ih2.1, ?_⟩
      rw [List.getD_cons_succ]
      exact ih2.2

/-- Claim C3: whenever `evaluate_at` is called with `ret_status = False`,
every query point with status code greater than 1 has its interpolated
value overwritten with the explicit undefined marker (which is not the
number zero), and every point with status 0 or 1 keeps its interpolated
value. -/
theorem c3_undefined_marker_policy (vals : List Val) (refCoors : List (List ℚ))
    (cells : List ℕ) (status : List ℕ) (retCells retRefCoors : Bool)
    (i : ℕ) (hi : i < vals.length) (hlen : vals.length = status.length) :
    (status.getD i 0 > 1 →
      (evaluate_at vals refCoors cells status retCells false retRefCoors).vals.getD i (Val.num 0)
        = Val.nan) ∧
    (status.getD i 0 ≤ 1 →
      (evaluate_at vals refCoors cells status retCells false retRefCoors).vals.getD i (Val.num 0)
        = vals.getD i (Val.num 0)) ∧
    Val.nan ≠ Val.num 0 := by
  have hvals : (evaluate_at vals refCoors cells status retCells false
      retRefCoors).vals = maskNan vals status := by
    unfold evaluate_at EvalOut.vals
    rcases retRefCoors with _ | _ <;> rcases retCells with _ | _ <;> simp
  rw [hvals]
  have hzip : i < (vals.zip status).length := by
    rw [List.length_zip, ← hlen, Nat.min_self]; exact hi
  have hst : i < status.length := by rw [← hlen]; exact hi
  have hmask : (maskNan vals status).getD i (Val.num 0)
      = if status.getD i 0 > 1 then Val.nan else vals.getD i (Val.num 0) := by
    unfold maskNan
    rw [List.getD_eq_getElem _ _ (by simpa [maskNan] using hzip)]
    rw [List.getElem_map, List.getElem_zip]
    rw [List.getD_eq_getElem _ _ hst, List.getD_eq_getElem _ _ hi]
  refine ⟨?_, ?_, by simp⟩
  · intro h
    rw [hmask, if_pos h]
  · intro h
    rw [hmask, if_neg (by omega)]

/-- Claim C3 witness: the policy evaluated at a concrete 3-point call
with status codes 0, 1 and 2. -/
theorem c3_undefined_marker_policy_witness :
    (2 > 1 →
      (evaluate_at [Val.num 5, Val.num 6, Val.num 7] [] [0, 0, 0] [0, 1, 2]
        false false false).vals.getD 2 (Val.num 0) = Val.nan) ∧
    (2 ≤ 1 →
      (evaluate_at [Val.num 5, Val.num 6, Val.num 7] [] [0, 0, 0] [0, 1, 2]
        false false false).vals.getD 2 (Val.num 0)
        = [Val.num 5, Val.num 6, Val.num 7].getD 2 (Val.num 0)) ∧
    Val.nan ≠ Val.num 0 := by
  have h := c3_undefined_marker_policy [Val.num 5, Val.num 6, Val.num 7] []
    [0, 0, 0] [0, 1, 2] false false 2 (by decide) (by decide)
  simpa using h

/-- Claim C1: DOF sharing invariant of the connectivity builder.  For
any two rows of the `_setup_facet_dofs` write loop that address the
same (remapped) global facet — i.e. two cells sharing that facet —
and any canonical facet node `p`, both rows place the same global DOF
id (`offset + m * facet + p`) into the econn slot of their cell for `p`,
and both writes occur in `setup_facet_dofs_writes`: the
orientation-specific permutations align the two writes. -/
theorem c1_dof_sharing_invariant (offset m : ℕ) (facetDesc : List (List ℕ))
    (rows : List CellFacet) (r1 r2 : CellFacet)
    (h1 : r1 ∈ rows) (h2 : r2 ∈ rows) (hf : r1.facet = r2.facet)
    (ho1 : r1.ori < 2) (ho2 : r2.ori < 2) (p : ℕ) (hp : p < m) :
    writtenDofAtPhysNode offset m r1 p = writtenDofAtPhysNode offset m r2 p ∧
    writtenDofAtPhysNode offset m r1 p = offset + (m * r1.facet + p) ∧
    ((r1.cell, (facetDesc.getD r1.lf []).getD (physNode m r1.ori p) 0),
        writtenDofAtPhysNode offset m r1 p)
      ∈ setup_facet_dofs_writes offset m facetDesc rows ∧
    ((r2.cell, (facetDesc.getD r2.lf []).getD (physNode m r2.ori p) 0),
        writtenDofAtPhysNode offset m r2 p)
      ∈ setup_facet_dofs_writes offset m facetDesc rows := by
  have key : ∀ r : CellFacet, r.ori < 2 →
      writtenDofAtPhysNode offset m r p = offset + (m * r.facet + p) := by
    intro r hor
    unfold writtenDofAtPhysNode edgeDofPerm physNode
    interval_cases h : r.ori
    · simp
    · simp
      omega
  have hmem : ∀ r : CellFacet, r ∈ rows → r.ori < 2 →
      ((r.cell, (facetDesc.getD r.lf []).getD (physNode m r.ori p) 0),
        writtenDofAtPhysNode offset m r p)
        ∈ setup_facet_dofs_writes offset m facetDesc rows := by
    intro r hr hor
    unfold setup_facet_dofs_writes
    rw [List.mem_flatMap]
    refine ⟨r, hr, ?_⟩
    rw [List.mem_map]
    refine ⟨physNode m r.ori p, ?_, ?_⟩
    · rw [List.mem_range]
      unfold physNode
      rcases Nat.eq_zero_or_pos m with hm | hm
      · omega
      · split <;> omega
    · rfl
  exact ⟨by rw [key r1 ho1, key r2 ho2, hf], key r1 ho1,
    hmem r1 h1 ho1, hmem r2 h2 ho2⟩

/-- Claim C1 witness: two cells (0 and 1) share remapped facet 2 with
opposite orientations; with 3 DOFs per edge (order 4) both writes for
canonical node 1 store DOF id `10 + 3 * 2 + 1 = 17`. -/
theorem c1_dof_sharing_invariant_witness :
    writtenDofAtPhysNode 10 3 ⟨0, 0, 2, 0⟩ 1
      = writtenDofAtPhysNode 10 3 ⟨1, 2, 2, 1⟩ 1 ∧
    writtenDofAtPhysNode 10 3 ⟨0, 0, 2, 0⟩ 1 = 10 + (3 * 2 + 1) ∧
    ((0, ([[4, 5, 6], [7, 8, 9]].getD 0 []).getD (physNode 3 0 1) 0),
        writtenDofAtPhysNode 10 3 ⟨0, 0, 2, 0⟩ 1)
      ∈ setup_facet_dofs_writes 10 3 [[4, 5, 6], [7, 8, 9]]
          [⟨0, 0, 2, 0⟩, ⟨1, 2, 2, 1⟩] ∧
    ((1, ([[4, 5, 6], [7, 8, 9]].getD 2 []).getD (physNode 3 1 1) 0),
        writtenDofAtPhysNode 10 3 ⟨1, 2, 2, 1⟩ 1)
      ∈ setup_facet_dofs_writes 10 3 [[4, 5, 6], [7, 8, 9]]
          [⟨0, 0, 2, 0⟩, ⟨1, 2, 2, 1⟩] := by
  exact c1_dof_sharing_invariant 10 3 [[4, 5, 6], [7, 8, 9]]
    [⟨0, 0, 2, 0⟩, ⟨1, 2, 2, 1⟩] ⟨0, 0, 2, 0⟩ ⟨1, 2, 2, 1⟩
    (by decide) (by decide) (by decide) (by decide) (by decide) 1 (by decide)

/-- Claim C10: the NaN masking is controlled solely by `ret_status`:
when `ret_ref_coors` is true and `ret_status` is false the caller
receives the status array together with already-masked values, while
setting `ret_status` to true returns the raw values; requesting
reference coordinates does not count as requesting raw status. -/
theorem c10_ref_coors_still_masked (vals : List Val)
    (refCoors : List (List ℚ)) (cells : List ℕ) (status : List ℕ)
    (retCells : Bool) :
    evaluate_at vals refCoors cells status retCells false true
      = EvalOut.full (maskNan vals status) refCoors cells status ∧
    evaluate_at vals refCoors cells status retCells true true
      = EvalOut.full vals refCoors cells status := by
  constructor <;> simp [evaluate_at]


/-- Helper: the `i`-th row of `nm.c_[cells, ii]` built by
`find_level_interface` lines 81-87, evaluated through the maps. -/
theorem interface_cellRow_eval (flag : List Bool) (region0cells : List ℕ)
    (cellsFlat : List ℕ) (i : ℕ) (hi : i < (toPairs cellsFlat).length) :
    (((toPairs cellsFlat).map (orientCells flag)).map
      (fun c => (c.1, c.2, searchsorted region0cells c.2))).getD i (0, 0, 0)
    = ((orientCells flag (cellPairAt cellsFlat i)).1,
       (orientCells flag (cellPairAt cellsFlat i)).2,
       searchsorted region0cells (orientCells flag (cellPairAt cellsFlat i)).2) := by
  rw [List.map_map]
  rw [List.getD_eq_getElem _ _ (by simpa using hi)]
  rw [List.getElem_map]
  unfold cellPairAt
  rw [List.getD_eq_getElem _ _ hi]
  rfl

/-- Helper: the `i`-th row of `nm.c_[facets, ii]` built by
`find_level_interface` lines 80-83, evaluated through the zips and
maps. -/
theorem interface_facetRow_eval (flag : List Bool)
    (facets cellsFlat locFlat : List ℕ) (i : ℕ)
    (hi : i < (toPairs cellsFlat).length)
    (hfl : facets.length = (toPairs cellsFlat).length)
    (hll : (toPairs locFlat).length = (toPairs cellsFlat).length) :
    ((facets.zip (((toPairs cellsFlat).zip (toPairs locFlat)).map
        (fun p => orientLocals flag p.1 p.2))).map
        (fun p => (p.1, p.2.1, p.2.2))).getD i (0, 0, 0)
    = (facets.getD i 0,
       (orientLocals flag (cellPairAt cellsFlat i) (locPairAt locFlat i)).1,
       (orientLocals flag (cellPairAt cellsFlat i) (locPairAt locFlat i)).2) := by
  have hiF : i < facets.length := by omega
  have hiL : i < (toPairs locFlat).length := by omega
  have hzz : i < ((toPairs cellsFlat).zip (toPairs locFlat)).length := by
    rw [List.length_zip]
    omega
  rw [List.getD_eq_getElem _ _ (by
    rw [List.length_map, List.length_zip, List.length_map, List.length_zip]
    omega)]
  rw [List.getElem_map, List.getElem_zip, List.getElem_map, List.getElem_zip]
  unfold cellPairAt locPairAt
  rw [List.getD_eq_getElem _ _ hiF, List.getD_eq_getElem _ _ hi,
    List.getD_eq_getElem _ _ hiL]

/-- Claim C8: two-incident-cells invariant.  With at least one flagged
cell, `find_level_interface` completes normally when every interface
facet has exactly two incident cells (consecutive incidence offsets
differing by two, the manifold precondition), and on any input where
some interface facet has an incidence count other than two it raises
the fatal assertion of line 73 instead of returning. -/
theorem c8_two_incident_cells (flag : List Bool)
    (facets cellsFlat offs locFlat region0cells : List ℕ)
    (hAny : flag.all (fun b => b = false) = false) :
    ((∀ j, j + 1 < offs.length → offs.getD (j + 1) 0 = offs.getD j 0 + 2) →
      isOkE (find_level_interface flag facets cellsFlat offs locFlat
        region0cells) = true) ∧
    ((¬ ∀ j, j + 1 < offs.length → offs.getD (j + 1) 0 = offs.getD j 0 + 2) →
      find_level_interface flag facets cellsFlat offs locFlat region0cells
        = Except.error PyError.assertError) := by
  constructor
  · intro h
    have hd : diffsAllTwo offs = true := (diffsAllTwo_iff offs).mpr h
    unfold find_level_interface
    by_cases hall : (flag.all fun b => b = false) = true
    · rw [if_pos hall]
      rfl
    · rw [if_neg hall, if_pos hd]
      rfl
  · intro h
    have hd : ¬ (diffsAllTwo offs = true) :=
      fun h2 => h ((diffsAllTwo_iff offs).mp h2)
    have hallne : ¬ ((flag.all fun b => b = false) = true) := by
      rw [hAny]
      simp
    unfold find_level_interface
    rw [if_neg hallne, if_neg hd]

/-- Claim C8 witness: a single-facet input with correct incidence
offsets `[0, 2]` completes, applied at facet 5 shared by flagged
cell 0 and coarse cell 1. -/
theorem c8_two_incident_cells_witness :
    isOkE (find_level_interface [true, false] [5] [0, 1] [0, 2] [0, 3] [1])
      = true := by
  refine (c8_two_incident_cells [true, false] [5] [0, 1] [0, 2] [0, 3] [1]
    (by decide)).1 ?_
  intro j hj
  have hj0 : j = 0 := by
    simp at hj
    omega
  subst hj0
  decide

/-- Claim C7: interface record orientation.  When at least one cell is
flagged and the incidence check passes, row `i` of the cells array
returned by `find_level_interface` lists the refined-side incident
cell first (its refine flag is true) and the coarse-side incident cell
second (flag false); the two listed cells are exactly the two
cells incident to the facet; the third entry indexes the coarse-side cell in the
coarse-only cell list; and the facet row carries the matching local
facet indices in the same refined-then-coarse order. -/
theorem c7_interface_row_orientation (flag : List Bool)
    (facets cellsFlat offs locFlat region0cells : List ℕ) (i : ℕ)
    (F : Except PyError InterfaceData)
    (hF : find_level_interface flag facets cellsFlat offs locFlat region0cells
      = F)
    (hAny : flag.all (fun b => b = false) = false)
    (hDiff : diffsAllTwo offs = true)
    (hi : i < (toPairs cellsFlat).length)
    (hfl : facets.length = (toPairs cellsFlat).length)
    (hll : (toPairs locFlat).length = (toPairs cellsFlat).length)
    (hone : (flag.getD (cellPairAt cellsFlat i).1 false = true ∧
             flag.getD (cellPairAt cellsFlat i).2 false = false) ∨
            (flag.getD (cellPairAt cellsFlat i).1 false = false ∧
             flag.getD (cellPairAt cellsFlat i).2 false = true))
    (hsorted : region0cells.Sorted (· ≤ ·))
    (hmem : (if flag.getD (cellPairAt cellsFlat i).1 false = true
             then (cellPairAt cellsFlat i).2
             else (cellPairAt cellsFlat i).1) ∈ region0cells) :
    isOkE F = true ∧
    flag.getD ((interfaceRows F).cellRows.getD i (0, 0, 0)).1 false = true ∧
    flag.getD ((interfaceRows F).cellRows.getD i (0, 0, 0)).2.1 false = false ∧
    ((((interfaceRows F).cellRows.getD i (0, 0, 0)).1,
      ((interfaceRows F).cellRows.getD i (0, 0, 0)).2.1)
        = cellPairAt cellsFlat i ∨
     (((interfaceRows F).cellRows.getD i (0, 0, 0)).2.1,
      ((interfaceRows F).cellRows.getD i (0, 0, 0)).1)
        = cellPairAt cellsFlat i) ∧
    region0cells.getD ((interfaceRows F).cellRows.getD i (0, 0, 0)).2.2 0
      = ((interfaceRows F).cellRows.getD i (0, 0, 0)).2.1 ∧
    ((interfaceRows F).facetRows.getD i (0, 0, 0)).1 = facets.getD i 0 ∧
    (((interfaceRows F).cellRows.getD i (0, 0, 0)).1
        = (cellPairAt cellsFlat i).1 →
      (((interfaceRows F).facetRows.getD i (0, 0, 0)).2.1,
       ((interfaceRows F).facetRows.getD i (0, 0, 0)).2.2)
        = locPairAt locFlat i) ∧
    (((interfaceRows F).cellRows.getD i (0, 0, 0)).1
        = (cellPairAt cellsFlat i).2 →
      (((interfaceRows F).facetRows.getD i (0, 0, 0)).2.1,
       ((interfaceRows F).facetRows.getD i (0, 0, 0)).2.2)
        = ((locPairAt locFlat i).2, (locPairAt locFlat i).1)) := by
  subst hF
  have hallne : ¬ ((flag.all fun b => b = false) = true) := by
    rw [hAny]
    simp
  unfold find_level_interface
  rw [if_neg hallne, if_pos hDiff]
  simp only [interfaceRows, isOkE]
  rw [interface_cellRow_eval flag region0cells cellsFlat i hi,
    interface_facetRow_eval flag facets cellsFlat locFlat i hi hfl hll]
  rcases hone with ⟨h1, h2⟩ | ⟨h1, h2⟩
  · have hoc : orientCells flag (cellPairAt cellsFlat i)
        = ((cellPairAt cellsFlat i).1, (cellPairAt cellsFlat i).2) := by
      unfold orientCells
      rw [h1, h2]
      simp
    have hol : orientLocals flag (cellPairAt cellsFlat i) (locPairAt locFlat i)
        = ((locPairAt locFlat i).1, (locPairAt locFlat i).2) := by
      unfold orientLocals
      rw [h1, h2]
      simp
    rw [hoc, hol]
    have hmem2 : (cellPairAt cellsFlat i).2 ∈ region0cells := by
      rw [if_pos h1] at hmem
      exact hmem
    have hss := searchsorted_mem region0cells (cellPairAt cellsFlat i).2
      hsorted hmem2
    refine ⟨trivial, h1, h2, Or.inl rfl, hss.2, rfl, fun _ => rfl,
      fun hEq => ?_⟩
    have hEq2 : (cellPairAt cellsFlat i).1 = (cellPairAt cellsFlat i).2 := hEq
    rw [hEq2] at h1
    exact absurd (h2.symm.trans h1) (by decide)
  · have hoc : orientCells flag (cellPairAt cellsFlat i)
        = ((cellPairAt cellsFlat i).2, (cellPairAt cellsFlat i).1) := by
      unfold orientCells
      rw [h1, h2]
      simp
    have hol : orientLocals flag (cellPairAt cellsFlat i) (locPairAt locFlat i)
        = ((locPairAt locFlat i).2, (locPairAt locFlat i).1) := by
      unfold orientLocals
      rw [h1, h2]
      simp
    rw [hoc, hol]
    have hmem2 : (cellPairAt cellsFlat i).1 ∈ region0cells := by
      rw [if_neg (by rw [h1]; simp)] at hmem
      exact hmem
    have hss := searchsorted_mem region0cells (cellPairAt cellsFlat i).1
      hsorted hmem2
    refine ⟨trivial, h2, h1, Or.inr rfl, hss.2, rfl, fun hEq => ?_,
      fun _ => rfl⟩
    have hEq2 : (cellPairAt cellsFlat i).2 = (cellPairAt cellsFlat i).1 := hEq
    rw [hEq2] at h2
    exact absurd (h1.symm.trans h2) (by decide)

/-- Claim C7 witness: the orientation property applied to the
single-facet input of the manifold example: facet 5, incident cells
(0, 1) with cell 0 flagged, local facet indices (2, 3), coarse-only
cell list `[1]`. -/
theorem c7_interface_row_orientation_witness :
    isOkE (find_level_interface [true, false] [5] [0, 1] [0, 2] [2, 3] [1])
      = true ∧
    [true, false].getD ((interfaceRows (find_level_interface [true, false]
      [5] [0, 1] [0, 2] [2, 3] [1])).cellRows.getD 0 (0, 0, 0)).1 false
      = true ∧
    [true, false].getD ((interfaceRows (find_level_interface [true, false]
      [5] [0, 1] [0, 2] [2, 3] [1])).cellRows.getD 0 (0, 0, 0)).2.1 false
      = false := by
  have h := c7_interface_row_orientation [true, false] [5] [0, 1] [0, 2]
    [2, 3] [1] 0 _ rfl (by decide) (by decide) (by decide) (by decide)
    (by decide) (by decide) (by simp) (by decide)
  exact ⟨h.1, h.2.1, h.2.2.1⟩

/-- Claim C4 (code bug): `refine_region` records exactly 4 child ids
per flagged cell — `nm.arange(4 * n).reshape((-1, 4))` hard-codes the
2D quad template — so on a 3D hex input (here: one coarse cell, one
flagged cell) the recorded child list `[1, 2, 3, 4]` has 4 entries
although the hex splitting template produces 8 children; the offset
past the coarse cell count does hold. -/
theorem c4_sub_cells_child_count :
    refine_region_sub_cells 1 [1] = [(1, [1, 2, 3, 4])] ∧
    (refine_region_sub_cells 1 [1]).map (fun r => r.2.length) = [4] ∧
    templateChildCount 3 = 8 ∧
    ¬ ((refine_region_sub_cells 1 [1]).map (fun r => r.2.length)
        = [templateChildCount 3]) := by
  decide

/-- Claim C9: whenever `find_level_interface` completes (in particular
for an all-false refine flag) and the line-173 connectivity assertion
holds, `refine` raises `TypeError` instead of returning: line 180
calls the four-parameter `find_facet_substitutions` with only three
arguments, on every path (the desc-guarded four-argument call of line
177 completes but its result is overwritten). -/
theorem c9_refine_always_type_errors (flag : List Bool)
    (facets cellsFlat offs locFlat region0cells : List ℕ) (isQuad : Bool)
    (d : InterfaceData)
    (hOk : find_level_interface flag facets cellsFlat offs locFlat
      region0cells = Except.ok d) :
    refine_embedded flag facets cellsFlat offs locFlat region0cells true
      isQuad = Except.error PyError.typeError ∧
    find_facet_substitutions_nparams = 4 ∧
    pyCall find_facet_substitutions_nparams 3
      = Except.error PyError.typeError := by
  refine ⟨?_, rfl, rfl⟩
  unfold refine_embedded
  rw [hOk]
  have hcond : ¬ (d.facetRows.length > 0 ∧ (true = false)) := by
    intro h
    exact absurd h.2 (by decide)
  dsimp only
  rw [if_neg hcond]
  rcases isQuad with _ | _ <;> rfl

/-- Claim C9 witness: the all-false refine flag on an empty interface:
`find_level_interface` returns the empty structure and `refine` still
raises `TypeError`. -/
theorem c9_refine_always_type_errors_witness :
    refine_embedded [false] [] [] [] [] [] true true
      = Except.error PyError.typeError ∧
    find_facet_substitutions_nparams = 4 ∧
    pyCall find_facet_substitutions_nparams 3
      = Except.error PyError.typeError :=
  c9_refine_always_type_errors [false] [] [] [] [] [] true ⟨[], []⟩ rfl

/-- Claim C5: the output mesh of `refine_region` contains the
unrefined coarse cells as an index-consistent copy of the input mesh:
the connectivity row at coarse-only index `i` is the input row of
coarse cell `region0cells[i]` verbatim, the coordinates of the input
vertices are unchanged, and for an interface record naming coarse
neighbor `c1` the input row of `c1` equals the output row at the
coarse-only index computed by `nm.searchsorted` (the line-173
assertion of `refine`). -/
theorem c5_coarse_cells_unaltered (mesh0 : Mesh) (region0cells : List ℕ)
    (extraCoors : List (List ℚ)) (conns1r : List (List ℕ))
    (matIds1r : List ℕ) (i : ℕ) (c1 : ℕ)
    (hi : i < region0cells.length)
    (hsorted : region0cells.Sorted (· ≤ ·))
    (hmem : c1 ∈ region0cells) :
    (refine_region_mesh mesh0 region0cells (mesh0.coors ++ extraCoors)
        conns1r matIds1r).conn.getD i []
      = mesh0.conn.getD (region0cells.getD i 0) [] ∧
    (∀ v, v < mesh0.coors.length →
      (refine_region_mesh mesh0 region0cells (mesh0.coors ++ extraCoors)
          conns1r matIds1r).coors.getD v []
        = mesh0.coors.getD v []) ∧
    (refine_region_mesh mesh0 region0cells (mesh0.coors ++ extraCoors)
        conns1r matIds1r).conn.getD (searchsorted region0cells c1) []
      = mesh0.conn.getD c1 [] := by
  have hcopy : ∀ k, k < region0cells.length →
      (refine_region_mesh mesh0 region0cells (mesh0.coors ++ extraCoors)
          conns1r matIds1r).conn.getD k []
        = mesh0.conn.getD (region0cells.getD k 0) [] := by
    intro k hk
    unfold refine_region_mesh
    dsimp only
    rw [List.getD_append _ _ _ _ (by simpa using hk)]
    rw [List.getD_eq_getElem _ _ (by simpa using hk), List.getElem_map,
      ← List.getD_eq_getElem _ _ hk]
  refine ⟨hcopy i hi, ?_, ?_⟩
  · intro v hv
    unfold refine_region_mesh
    dsimp only
    rw [List.getD_append _ _ _ _ hv]
  · have hss := searchsorted_mem region0cells c1 hsorted hmem
    rw [hcopy _ hss.1, hss.2]

/-- Claim C5 witness: a 2-cell input mesh with coarse region `[1]`,
one extra vertex and one fine cell appended: the coarse row `[2, 3]`,
the vertex `(0, 0)` and the interface lookup at coarse neighbor 1 are
all unaltered. -/
theorem c5_coarse_cells_unaltered_witness :
    (refine_region_mesh ⟨[[0, 0], [1, 0], [1, 1], [0, 1]], [[0, 1], [2, 3]],
        [0, 0]⟩ [1] ([[0, 0], [1, 0], [1, 1], [0, 1]] ++ [[5, 5]]) [[9, 9]]
        [7]).conn.getD 0 []
      = (⟨[[0, 0], [1, 0], [1, 1], [0, 1]], [[0, 1], [2, 3]], [0, 0]⟩ :
          Mesh).conn.getD ([1].getD 0 0) [] ∧
    (refine_region_mesh ⟨[[0, 0], [1, 0], [1, 1], [0, 1]], [[0, 1], [2, 3]],
        [0, 0]⟩ [1] ([[0, 0], [1, 0], [1, 1], [0, 1]] ++ [[5, 5]]) [[9, 9]]
        [7]).coors.getD 0 []
      = (⟨[[0, 0], [1, 0], [1, 1], [0, 1]], [[0, 1], [2, 3]], [0, 0]⟩ :
          Mesh).coors.getD 0 [] ∧
    (refine_region_mesh ⟨[[0, 0], [1, 0], [1, 1], [0, 1]], [[0, 1], [2, 3]],
        [0, 0]⟩ [1] ([[0, 0], [1, 0], [1, 1], [0, 1]] ++ [[5, 5]]) [[9, 9]]
        [7]).conn.getD (searchsorted [1] 1) []
      = (⟨[[0, 0], [1, 0], [1, 1], [0, 1]], [[0, 1], [2, 3]], [0, 0]⟩ :
          Mesh).conn.getD 1 [] := by
  have h := c5_coarse_cells_unaltered
    ⟨[[0, 0], [1, 0], [1, 1], [0, 1]], [[0, 1], [2, 3]], [0, 0]⟩ [1]
    [[5, 5]] [[9, 9]] [7] 0 1 (by decide) (by simp) (by decide)
  exact ⟨h.1, h.2.1 0 (by decide), h.2.2⟩

/-- Helper: `cumsum` preserves length. -/
theorem cumsum_length (l : List ℤ) : (cumsum l).length = l.length := by
  induction l with
  | nil => rfl
  | cons x xs ih => simp [cumsum, ih]

/-- Helper: entry `c` of `cumsum l` is the sum of the first `c + 1`
entries of `l`. -/
theorem cumsum_getD (l : List ℤ) (c : ℕ) (hc : c < l.length) :
    (cumsum l).getD c 0 = (l.take (c + 1)).sum := by
  induction l generalizing c with
  | nil => simp at hc
  | cons x xs ih =>
    cases c with
    | zero => simp [cumsum]
    | succ k =>
      have hk : k < xs.length := by simpa using hc
      unfold cumsum
      rw [List.getD_cons_succ]
      rw [List.getD_eq_getElem _ _ (by simpa [cumsum_length] using hk)]
      rw [List.getElem_map]
      rw [← List.getD_eq_getElem _ _ (by simpa [cumsum_length] using hk)]
      rw [ih k hk]
      rw [List.take_succ_cons, List.sum_cons]

/-- Helper: the sum of the masked `-1` entries over `range m` is the
negated count of flagged indices below `m`. -/
theorem sum_indicator_range (flag : List Bool) (m : ℕ) :
    ((List.range m).map
        (fun i => if flag.getD i false then (-1 : ℤ) else 0)).sum
      = -(((flag.take m).count true : ℕ) : ℤ) := by
  induction m with
  | zero => simp
  | succ k ih =>
    rw [List.range_succ, List.map_append, List.sum_append, ih]
    simp only [List.map_cons, List.map_nil, List.sum_cons, List.sum_nil]
    by_cases hk : k < flag.length
    · rw [List.take_succ, List.count_append]
      rw [List.getElem?_eq_getElem hk]
      rw [List.getD_eq_getElem _ _ hk]
      cases hv : flag[k]
      · simp
      · simp
        ring
    · rw [List.take_of_length_le (by omega), List.take_of_length_le (by omega)]
      rw [List.getD_eq_default _ _ (by omega)]
      simp

/-- Helper: entry `c` of the cumulative offset array of `refine` lines
185-187 is the negated number of flagged cells with index at most
`c`. -/
theorem modsArr_getD (flag : List Bool) (nEl c : ℕ) (hc : c ≤ nEl) :
    (modsArr flag nEl).getD c 0
      = -(((flag.take (c + 1)).count true : ℕ) : ℤ) := by
  unfold modsArr
  rw [cumsum_getD _ c (by simp [modsInit]; omega)]
  unfold modsInit
  rw [← List.map_take, List.take_range]
  rw [show min (c + 1) (nEl + 1) = c + 1 by omega]
  exact sum_indicator_range flag (c + 1)

/-- Helper: when the cell at index `c` is itself not flagged, the
flagged count below `c + 1` equals the flagged count below `c`. -/
theorem count_take_succ_of_false (flag : List Bool) (c : ℕ)
    (hcb : c < flag.length) (hcf : flag.getD c false = false) :
    (flag.take (c + 1)).count true = (flag.take c).count true := by
  rw [List.take_succ, List.count_append]
  rw [List.getElem?_eq_getElem hcb]
  rw [List.getD_eq_getElem _ _ hcb] at hcf
  rw [hcf]
  simp

/-- Claim C6 counterexample: a prior record whose cell entry 0 is
itself refined in the current pass (`refine = [true]`): the code
shifts it by the running cumulative offset, which at index 0 already
counts the cell itself, giving `-1`, whereas the number of refined
cells with a *smaller* index than 0 is 0, so the claim would give
`0 - 0 = 0 ≠ -1`. -/
theorem c6_smaller_index_shift_fails :
    chain_gsubs 4 [true] (some [[0, 0, 0, 0, 0, 0]]) [[1, 0, 1, 0, 1, 0]]
      = some [[-1, 0, -1, 0, -1, 0], [1, 0, 1, 0, 1, 0]] ∧
    ([true].take 0).count true = 0 ∧
    (0 : ℤ) - (([true].take 0).count true : ℕ) ≠ -1 := by
  refine ⟨by decide, by decide, by decide⟩

/-- Claim C6 amended: when `refine` is invoked with a previously
accumulated substitution list and the current pass produces new
substitutions, the prior records are shifted and then the new records
appended; every cell-index entry (columns 0, 2 and 4) is shifted down
by the number of refined (removed) cells with index at most the entry
— the cumulative running offset over the refine flag — which equals
the count over strictly smaller indices exactly when the entry names a
cell that is not itself refined in this pass; other columns are
unchanged. -/
theorem c6_chained_pass_shift (nEl : ℕ) (flag : List Bool)
    (gs gsubs1 : List (List ℕ))
    (hne : gsubs1.length ≠ 0)
    (hlen : flag.length ≤ nEl + 1)
    (k : ℕ) (hk : k < gs.length)
    (j : ℕ) (hj : j < (gs.getD k []).length)
    (hcb : (gs.getD k []).getD j 0 < flag.length) :
    chain_gsubs nEl flag (some gs) gsubs1
      = some (gs.map (shiftRecord (modsArr flag nEl))
          ++ gsubs1.map (fun r => r.map (fun x => (x : ℤ)))) ∧
    ((gs.map (shiftRecord (modsArr flag nEl))).getD k []).getD j 0
      = (if j = 0 ∨ j = 2 ∨ j = 4
         then ((gs.getD k []).getD j 0 : ℤ)
            - (((flag.take ((gs.getD k []).getD j 0 + 1)).count true : ℕ) : ℤ)
         else ((gs.getD k []).getD j 0 : ℤ)) ∧
    (flag.getD ((gs.getD k []).getD j 0) false = false →
      ((gs.map (shiftRecord (modsArr flag nEl))).getD k []).getD j 0
        = (if j = 0 ∨ j = 2 ∨ j = 4
           then ((gs.getD k []).getD j 0 : ℤ)
              - (((flag.take ((gs.getD k []).getD j 0)).count true : ℕ) : ℤ)
           else ((gs.getD k []).getD j 0 : ℤ))) := by
  have hentry : ((gs.map (shiftRecord (modsArr flag nEl))).getD k []).getD j 0
      = (if j = 0 ∨ j = 2 ∨ j = 4
         then ((gs.getD k []).getD j 0 : ℤ)
            - (((flag.take ((gs.getD k []).getD j 0 + 1)).count true
                : ℕ) : ℤ)
         else ((gs.getD k []).getD j 0 : ℤ)) := by
    have hrow : (gs.map (shiftRecord (modsArr flag nEl))).getD k []
        = shiftRecord (modsArr flag nEl) (gs.getD k []) := by
      rw [List.getD_eq_getElem (gs.map (shiftRecord (modsArr flag nEl))) []
        (by simpa using hk)]
      rw [List.getElem_map]
      rw [List.getD_eq_getElem gs [] hk]
    rw [hrow]
    unfold shiftRecord
    rw [List.getD_eq_getElem _ 0 (by simpa using hj), List.getElem_map,
      List.getElem_range]
    by_cases hjc : j = 0 ∨ j = 2 ∨ j = 4
    · rw [if_pos hjc, if_pos hjc]
      have hc : (gs.getD k []).getD j 0 ≤ nEl := by omega
      rw [modsArr_getD flag nEl _ hc]
      ring
    · rw [if_neg hjc, if_neg hjc]
  refine ⟨?_, hentry, ?_⟩
  · unfold chain_gsubs
    dsimp only
    rw [if_pos hne]
  · intro hcf
    rw [hentry, count_take_succ_of_false flag _ hcb hcf]

/-- Claim C6 witness: old mesh `[false, true, false]` (cell 1
refined), prior record with surviving cell entry 2 in column 0: the
shifted entry is `2 - 1 = 1` under both counts. -/
theorem c6_chained_pass_shift_witness :
    chain_gsubs 5 [false, true, false] (some [[2, 0, 0, 0, 0, 0]])
        [[0, 0, 0, 0, 0, 0]]
      = some ([[2, 0, 0, 0, 0, 0]].map
            (shiftRecord (modsArr [false, true, false] 5))
          ++ [[0, 0, 0, 0, 0, 0]].map (fun r => r.map (fun x => (x : ℤ)))) ∧
    (([[2, 0, 0, 0, 0, 0]].map
        (shiftRecord (modsArr [false, true, false] 5))).getD 0 []).getD 0 0
      = (if 0 = 0 ∨ 0 = 2 ∨ 0 = 4
         then (([[2, 0, 0, 0, 0, 0]].getD 0 []).getD 0 0 : ℤ)
            - ((([false, true, false].take
                (([[2, 0, 0, 0, 0, 0]].getD 0 []).getD 0 0 + 1)).count true
                  : ℕ) : ℤ)
         else (([[2, 0, 0, 0, 0, 0]].getD 0 []).getD 0 0 : ℤ)) ∧
    ([false, true, false].getD (([[2, 0, 0, 0, 0, 0]].getD 0 []).getD 0 0)
        false = false →
      (([[2, 0, 0, 0, 0, 0]].map
          (shiftRecord (modsArr [false, true, false] 5))).getD 0 []).getD 0 0
        = (if 0 = 0 ∨ 0 = 2 ∨ 0 = 4
           then (([[2, 0, 0, 0, 0, 0]].getD 0 []).getD 0 0 : ℤ)
              - ((([false, true, false].take
                  (([[2, 0, 0, 0, 0, 0]].getD 0 []).getD 0 0)).count true
                    : ℕ) : ℤ)
           else (([[2, 0, 0, 0, 0, 0]].getD 0 []).getD 0 0 : ℤ))) :=
  c6_chained_pass_shift 5 [false, true, false] [[2, 0, 0, 0, 0, 0]]
    [[0, 0, 0, 0, 0, 0]] (by decide) (by decide) 0 (by decide) 0 (by decide)
    (by decide)

set_option maxHeartbeats 1600000 in
/-- Claim C2 counterexample: for the order-1 quad field with 3 cells
and one substitution record `[0, 0, 1, 0, 2, 3]`, `eval_basis_transform`
returns normally (its line-253 assertion passes), yet the row sums of
the transform matrix of fine cell 1 are `[3/2, 1/2, 1, 1]` — the first
row sum misses 1.0 by 1/2, far beyond the 1e-15 tolerance.  The
line-253 check `transform.sum(1)` sums over the row index, i.e. checks
column sums, not row sums. -/
theorem c2_row_sums_not_one :
    isOkE (eval_basis_transform 3 4 (some [[0, 0, 1, 0, 2, 3]])) = true ∧
    (eval_basis_transform 3 4 (some [[0, 0, 1, 0, 2, 3]])).map
        (fun t => rowSums (t.getD 1 []))
      = Except.ok [3/2, 1/2, 1, 1] ∧
    ¬ (|(3/2 : ℚ) - 1| < tol) := by
  refine ⟨?_, ?_, ?_⟩
  · norm_num [eval_basis_transform, applySub, assignBlock, setEntry, tileEye,
      eye, colSums, bfBlock0, bfBlock1, bfSlice, bfQuad1, efQuad, tol,
      List.range_succ, isOkE]
  · norm_num [eval_basis_transform, applySub, assignBlock, setEntry, tileEye,
      eye, colSums, rowSums, bfBlock0, bfBlock1, bfSlice, bfQuad1, efQuad,
      tol, List.range_succ, Except.map]
  · intro hcontra
    rw [show ((3 : ℚ)/2 - 1) = 1/2 by norm_num] at hcontra
    rw [abs_of_pos (by norm_num)] at hcontra
    unfold tol at hcontra
    norm_num at hcontra

/-- Helper: the sum of a one-hot indicator over `range n`. -/
theorem sum_indicator_eq (n j : ℕ) :
    ((List.range n).map (fun i => if i = j then (1 : ℚ) else 0)).sum
      = if j < n then 1 else 0 := by
  induction n with
  | zero => simp
  | succ m ih =>
    rw [List.range_succ, List.map_append, List.sum_append, ih]
    simp only [List.map_cons, List.map_nil, List.sum_cons, List.sum_nil]
    by_cases h1 : j < m
    · have h2 : ¬ (m = j) := by omega
      have h3 : j < m + 1 := by omega
      rw [if_pos h1, if_neg h2, if_pos h3]
      ring
    · by_cases h2 : m = j
      · have h3 : j < m + 1 := by omega
        rw [if_neg h1, if_pos h2, if_pos h3]
        ring
      · have h3 : ¬ (j < m + 1) := by omega
        rw [if_neg h1, if_neg h2, if_neg h3]
        ring

/-- Helper: every column of the identity matrix sums to exactly 1. -/
theorem colSums_eye (n : ℕ) : ∀ s ∈ colSums n (eye n), s = 1 := by
  intro s hs
  unfold colSums at hs
  rw [List.mem_map] at hs
  obtain ⟨j, hj, hsum⟩ := hs
  rw [List.mem_range] at hj
  have hmap : (eye n).map (fun row => row.getD j 0)
      = (List.range n).map (fun i => if i = j then (1 : ℚ) else 0) := by
    unfold eye
    rw [List.map_map]
    apply List.map_congr_left
    intro i hi
    rw [List.mem_range] at hi
    dsimp only [Function.comp]
    rw [List.getD_eq_getElem _ 0 (by simpa using hj), List.getElem_map,
      List.getElem_range]
  rw [← hsum, hmap, sum_indicator_eq, if_pos hj]

/-- Claim C2 amended: for every field size and every (possibly None)
substitution list for which `eval_basis_transform` returns, every
column (the sums `transform.sum(1)` over the first matrix axis, which
is what the line-253 assertion checks) of every per-cell transform
matrix sums to 1.0 within the 1e-15 tolerance; row sums are not
constrained. -/
theorem c2_column_sums_postcondition (nc n : ℕ)
    (gsubs : Option (List (List ℕ))) (t : List (List (List ℚ)))
    (hOk : eval_basis_transform nc n gsubs = Except.ok t) :
    ∀ m ∈ t, ∀ s ∈ colSums n m, |s - 1| < tol := by
  intro m hm s hs
  cases gsubs with
  | none =>
    unfold eval_basis_transform at hOk
    injection hOk with ht
    subst ht
    have hm2 : m = eye n := by
      unfold tileEye at hm
      rw [List.mem_map] at hm
      obtain ⟨_, _, h⟩ := hm
      exact h.symm
    subst hm2
    rw [colSums_eye n s hs]
    rw [show |(1 : ℚ) - 1| = 0 by norm_num]
    unfold tol
    norm_num
  | some gs =>
    unfold eval_basis_transform at hOk
    dsimp only at hOk
    by_cases hcond : ((gs.foldl applySub (tileEye nc n)).all
        (fun mm => (colSums n mm).all (fun ss => |ss - 1| < tol))) = true
    · rw [if_pos hcond] at hOk
      injection hOk with ht
      subst ht
      have h1 := List.all_eq_true.mp hcond m hm
      have h2 := List.all_eq_true.mp h1 s hs
      exact of_decide_eq_true h2
    · rw [if_neg hcond] at hOk
      cases hOk

/-- Claim C2 amended witness: the postcondition applied to the
unit-substitution-free call on one 2-DOF cell, at the first column sum
(which is 1). -/
theorem c2_column_sums_postcondition_witness :
    |(1 : ℚ) - 1| < tol :=
  c2_column_sums_postcondition 1 2 none (tileEye 1 2) rfl (eye 2)
    (by rw [show tileEye 1 2 = [eye 2] by rfl]; simp) 1
    (by rw [show colSums 2 (eye 2) = [1, 1] by
          norm_num [colSums, eye, List.range_succ]]
        simp)

end Sfepy
